import Mathlib

/-!
Verification of the COGNIFY chat application (`src/hack.py`).

The Python program is a Streamlit app.  Its stateful parts (the `users.json`
account file, the per-identity `history/<email>/chat.json` transcript file,
the Streamlit session state) are embedded as explicit state values that the
translated functions thread through.  Python strings are Lean `String`s
(`List Char` for the character-indexed wrap loop), JSON values are the
inductive `Json` below, and the network call performed by
`requests.post` is a parameter of type `PostResult` describing the outcome
the environment produced.
-/

namespace Cognify

/-- JSON values, the data `json.load` / `json.dump` move between files and
Python objects.  Objects keep field order (Python dicts preserve insertion
order, which `json.dump` writes out). -/
inductive Json where
  | null : Json
  | bool (b : Bool) : Json
  | num (n : Int) : Json
  | str (s : String) : Json
  | arr (elems : List Json) : Json
  | obj (fields : List (String × Json)) : Json

/-- A chat message, the dict `{"role": ..., "content": ...}` the app appends
to `st.session_state.messages`. -/
structure Message where
  role : String
  content : String
  deriving DecidableEq, Repr

/-- JSON form of a message dict, in the insertion order the code uses:
`{"role": ..., "content": ...}`. -/
def Message.toJson (m : Message) : Json :=
  Json.obj [("role", Json.str m.role), ("content", Json.str m.content)]

/-- JSON form of a message list, what `json.dump(messages, f)` writes. -/
def transcriptToJson (msgs : List Message) : Json :=
  Json.arr (msgs.map Message.toJson)

/-- Reads a message dict back out of its JSON form. -/
def decodeMessage : Json → Option Message
  | Json.obj [("role", Json.str r), ("content", Json.str c)] => some ⟨r, c⟩
  | _ => none

/-- Reads message dicts back out of a list of JSON values, failing if any
element is not a message dict. -/
def decodeMessages : List Json → Option (List Message)
  | [] => some []
  | j :: js =>
    match decodeMessage j, decodeMessages js with
    | some m, some ms => some (m :: ms)
    | _, _ => none

/-- Reads a message list back out of its JSON form. -/
def decodeTranscript : Json → Option (List Message)
  | Json.arr elems => decodeMessages elems
  | _ => none

/-! ## History store (`load_history` / `save_history`, hack.py lines 135-147)

The filesystem under `history/` is modelled per identity:
`none` = no `chat.json` file exists, `some none` = the file exists but does
not parse as JSON (`json.load` raises `JSONDecodeError`), `some (some j)` =
the file exists and parses to the JSON value `j`. -/

/-- The durable transcript files, keyed by email. -/
abbrev HistStore := String → Option (Option Json)

/-- `load_history(email)`: returns the parsed file content verbatim, or the
empty list `[]` (encoded `Json.arr []`) when the file is missing or fails to
parse.  Totality of this function models "never raises": the only exception
the filesystem can produce at this level, `json.JSONDecodeError`, is caught. -/
def load_history (st : HistStore) (email : String) : Json :=
  match st email with
  | some (some j) => j
  | some none => Json.arr []
  | none => Json.arr []

/-- `save_history(email, messages)`: whole-file overwrite of the identity's
`chat.json` with `json.dump(messages, f)`. -/
def save_history (st : HistStore) (email : String) (messages : List Message) :
    HistStore :=
  fun e => if e = email then some (some (transcriptToJson messages)) else st e

/-! ## Account store (`login` / `signup`, hack.py lines 113-133)

`users.json` is a dict identity → credential, modelled as a partial map;
`signup` also runs `os.makedirs(f"history/{email}")`, recorded in `dirs`. -/

/-- The account file plus the set of history directories created so far. -/
structure AccountState where
  users : String → Option String
  dirs : List String

/-- `login(email, password)`: `email in users and users[email] == password`. -/
def login (s : AccountState) (email password : String) : Bool :=
  match s.users email with
  | some stored => stored == password
  | none => false

/-- `signup(email, password)`: rejects empty email or password, rejects an
existing identity, otherwise stores the credential, rewrites the account
file, and creates the identity's history directory. -/
def signup (s : AccountState) (email password : String) : Bool × AccountState :=
  if email = "" ∨ password = "" then (false, s)
  else if (s.users email).isSome then (false, s)
  else
    (true,
     { users := fun e => if e = email then some password else s.users e,
       dirs := email :: s.dirs })

/-! ## Inference client (`ask_ollama_stream`, hack.py lines 38-73)

The outcome of `requests.post(OLLAMA_URL, json=payload, stream=True,
timeout=300)` and of the subsequent body iteration is an
environment-supplied `PostResult`.  The `try` in the source wraps the whole
yield loop, so an exception can fire either before any output (the POST
itself fails, or the status is not 200) or in the middle of the iteration,
after some records were already processed and their fragments yielded:
`streamInterrupted` represents that mid-stream case. -/

/-- An exception raised while iterating a streamed 200 response body: a
between-fragment read timed out, the connection dropped, or a line failed
to parse (`json.loads` errors land in the catch-all `except Exception`). -/
inductive StreamExc where
  | readTimeout
  | connectionError (e : String)
  | otherException (e : String)

/-- Outcome of the HTTP POST to the Ollama endpoint and of reading its
streamed body.  `response status records bodyText`: the call returned;
`status` is `response.status_code`; for a 200 status, `records` are the JSON
values of the non-empty lines of `response.iter_lines()`, read to normal
termination; `bodyText` is `response.text`, used by the non-200 branch.
`streamInterrupted delivered exc`: the call returned 200 and `delivered`
records were read and processed before the iteration raised `exc`.
`readTimeout` / `connectionError` / `otherException`: the POST itself raised
before any record was processed. -/
inductive PostResult where
  | response (status : Nat) (records : List Json) (bodyText : String)
  | streamInterrupted (delivered : List Json) (exc : StreamExc)
  | readTimeout
  | connectionError (e : String)
  | otherException (e : String)

/-- `chunk.get("response", "")` on a parsed record: the `response` field's
string, or `""` when the field is absent (Ollama records carry text here). -/
def chunkFragment : Json → String
  | Json.obj fields =>
    match (fields.lookup "response") with
    | some (Json.str s) => s
    | _ => ""
  | _ => ""

/-- The fixed instructional prompt template, with `context` and `question`
embedded verbatim. -/
def buildPrompt (question context : String) : String :=
  "You are a helpful assistant. Answer the question using ONLY the context provided. If the answer is not in the context, say 'The answer is not available in the provided document.'\n\nContext:\n"
    ++ context ++ "\n\nQuestion:\n" ++ question ++ "\n\nAnswer:"

/-- The error fragment the matching `except` clause yields for an
exception. -/
def errorFragment : StreamExc → String
  | StreamExc.readTimeout =>
    "❌ Ollama connection timed out. The model may be taking too long to load. Please try again."
  | StreamExc.connectionError e =>
    "❌ Failed to connect to Ollama. Is it running? Error: " ++ e
  | StreamExc.otherException e =>
    "❌ An unexpected error occurred: " ++ e

/-- `ask_ollama_stream(question, context)`: the list of fragments the
generator yields, in order, for a given network outcome.  A 200 response
read to completion yields one fragment per record; a stream interrupted
mid-iteration yields the fragments of the records already processed and
then the error fragment of the exception that fired; a failure before any
record was processed yields a single error fragment.  No outcome raises to
the caller. -/
def ask_ollama_stream (question context : String) (r : PostResult) :
    List String :=
  let _prompt := buildPrompt question context
  match r with
  | PostResult.response status records bodyText =>
    if status == 200 then
      records.map chunkFragment
    else
      ["❌ Ollama Error " ++ toString status ++ ": " ++ bodyText]
  | PostResult.streamInterrupted delivered exc =>
    delivered.map chunkFragment ++ [errorFragment exc]
  | PostResult.readTimeout =>
    [errorFragment StreamExc.readTimeout]
  | PostResult.connectionError e =>
    [errorFragment (StreamExc.connectionError e)]
  | PostResult.otherException e =>
    [errorFragment (StreamExc.otherException e)]

/-- `"❌" in s` — the failure marker is the single character `'❌'`, so the
Python substring test is membership of that character. -/
def containsMarker (s : String) : Bool :=
  s.toList.contains '❌'

/-- `s` begins with the failure marker character. -/
def startsWithMarker (s : String) : Prop :=
  ∃ t, s = "❌" ++ t

/-- The failure conditions of the claim: connection not established, wait
bound elapsed (also between fragments, mid-iteration), endpoint answered
with a non-success status — plus the catch-all `except Exception` branch of
the code. -/
def failureOutcome : PostResult → Prop
  | PostResult.response status _ _ => status ≠ 200
  | PostResult.streamInterrupted _ _ => True
  | PostResult.readTimeout => True
  | PostResult.connectionError _ => True
  | PostResult.otherException _ => True

/-- The records the body iteration had already processed (and whose
fragments were already yielded) when the outcome completed: the delivered
prefix of an interrupted stream, none for a failure that fired before any
record was processed. -/
def deliveredRecords : PostResult → List Json
  | PostResult.streamInterrupted delivered _ => delivered
  | _ => []

/-! ## Session orchestrator (hack.py lines 178-225)

Streamlit session state relevant to the chat handler: the logged-in user,
the in-memory message list, and the extracted document context. -/

/-- Result of running the chat input handler once: the new in-memory message
list, the new state of the transcript files, whether `save_history` was
invoked during the run, and whether the "no document" warning was shown. -/
structure AskResult where
  messages : List Message
  hist : HistStore
  saved : Bool
  warned : Bool

/-- The chat input handler (hack.py lines 208-225) for a submitted
`question`, given the session's `user`, in-memory `messages`, document
`context`, the transcript files `hist`, and the network outcome `r` of the
Ollama call.  `full_response` is the value of
`st.write_stream(response_generator)`: the concatenation of the yielded
fragments. -/
def handleChatInput (hist : HistStore) (user : String) (messages : List Message)
    (context : String) (question : String) (r : PostResult) : AskResult :=
  if context = "" then
    { messages := messages, hist := hist, saved := false, warned := true }
  else
    let messages1 := messages ++ [⟨"user", question⟩]
    let full_response := String.join (ask_ollama_stream question context r)
    if containsMarker full_response = false then
      let messages2 := messages1 ++ [⟨"assistant", full_response⟩]
      { messages := messages2, hist := save_history hist user messages2,
        saved := true, warned := false }
    else
      { messages := messages1, hist := hist, saved := false, warned := false }

/-- The logout button handler's persistence step (hack.py line 183):
`save_history(st.session_state.current_user, st.session_state.messages)`
before the session state is discarded. -/
def logoutSave (hist : HistStore) (user : String) (messages : List Message) :
    HistStore :=
  save_history hist user messages

/-- The clear-history button handler (hack.py lines 188-190): empties the
in-memory messages, then saves the (now empty) list. -/
def clearHistoryHandler (hist : HistStore) (user : String) :
    List Message × HistStore :=
  ([], save_history hist user [])

/-! ## Report renderer word wrap (`download_pdf_report`, hack.py lines 92-99)

The inner wrapping loop, on one line of the report, as a function from the
line (a list of characters) to the list of emitted `textLine` pieces:

    while len(line) > 90:
        split_pos = line.rfind(' ', 0, 90)
        if split_pos == -1:
            split_pos = 90
        text.textLine(line[:split_pos])
        line = line[split_pos:].lstrip()
    text.textLine(line)
-/

/-- Python `str.isspace` on the ASCII whitespace characters, the set
`str.lstrip()` strips (the report lines contain no other whitespace). -/
def isPySpace (c : Char) : Bool :=
  c = ' ' || c = '\t' || c = '\n' || c = '\r' || c = '\x0b' || c = '\x0c'

/-- Python `line.lstrip()`. -/
def lstrip (l : List Char) : List Char :=
  l.dropWhile isPySpace

/-- Index of the last `' '` in `l`, if any (`str.rfind(' ')` on `l`). -/
def lastSpaceIdx : List Char → Option Nat
  | [] => none
  | c :: cs =>
    match lastSpaceIdx cs with
    | some i => some (i + 1)
    | none => if c = ' ' then some 0 else none

/-- The split position the loop body computes: `line.rfind(' ', 0, 90)`,
replaced by `90` when no space is found. -/
def splitPos (l : List Char) : Nat :=
  match lastSpaceIdx (l.take 90) with
  | some i => i
  | none => 90

/-- The wrap loop with explicit fuel: each iteration strictly shortens the
line (`wrapGo_fuel_irrel` certifies the fuel bound is irrelevant once it
covers the length), so `wrapLine` runs it with fuel `l.length`. -/
def wrapGo : Nat → List Char → List (List Char)
  | 0, l => [l]
  | fuel + 1, l =>
    if l.length > 90 then
      l.take (splitPos l) :: wrapGo fuel (lstrip (l.drop (splitPos l)))
    else
      [l]

/-- The whole wrapping loop on one input line: the pieces emitted by
`text.textLine`, in order. -/
def wrapLine (l : List Char) : List (List Char) :=
  wrapGo l.length l

/-- Interleaves wrap pieces with the whitespace runs `lstrip` discarded:
`glue [p1, p2, p3] [g1, g2] = p1 ++ g1 ++ p2 ++ g2 ++ p3`. -/
def glue : List (List Char) → List (List Char) → List Char
  | p :: ps, g :: gs => p ++ g ++ glue ps gs
  | p :: _, [] => p
  | [], _ => []

/-! ## Helper lemmas -/

theorem startsWithMarker_append (s t : String) (h : startsWithMarker s) :
    startsWithMarker (s ++ t) := by
  obtain ⟨u, rfl⟩ := h
  exact ⟨u ++ t, String.append_assoc _ _ _⟩

theorem containsMarker_of_startsWithMarker (s : String) (h : startsWithMarker s) :
    containsMarker s = true := by
  obtain ⟨t, rfl⟩ := h
  simp [containsMarker, String.toList, String.data_append, List.contains]

theorem startsWithMarker_errorFragment (exc : StreamExc) :
    startsWithMarker (errorFragment exc) := by
  cases exc with
  | readTimeout =>
    exact ⟨" Ollama connection timed out. The model may be taking too long to load. Please try again.", rfl⟩
  | connectionError e =>
    exact startsWithMarker_append _ _
      ⟨" Failed to connect to Ollama. Is it running? Error: ", rfl⟩
  | otherException e =>
    exact startsWithMarker_append _ _ ⟨" An unexpected error occurred: ", rfl⟩

theorem String.join_singleton (s : String) : String.join [s] = s := rfl

theorem decodeMessage_toJson (m : Message) :
    decodeMessage (Message.toJson m) = some m := rfl

theorem decodeMessages_map_toJson (T : List Message) :
    decodeMessages (T.map Message.toJson) = some T := by
  induction T with
  | nil => rfl
  | cons m ms ih => simp [decodeMessages, decodeMessage_toJson, ih]

theorem decodeTranscript_transcriptToJson (T : List Message) :
    decodeTranscript (transcriptToJson T) = some T := by
  unfold decodeTranscript transcriptToJson
  exact decodeMessages_map_toJson T

/-! ## Claims -/

/-- C1 counterexample: a wait-bound timeout that fires between fragments,
after two records were already delivered, makes the generator yield three
fragments — the two delivered ones followed by the error fragment — not a
single fragment. -/
theorem ask_failure_single_fragment_cex :
    ask_ollama_stream "q" "doc"
        (PostResult.streamInterrupted
          [Json.obj [("response", Json.str "The ")],
           Json.obj [("response", Json.str "answer.")]]
          StreamExc.readTimeout) =
      ["The ", "answer.",
       "❌ Ollama connection timed out. The model may be taking too long to load. Please try again."] ∧
    (ask_ollama_stream "q" "doc"
        (PostResult.streamInterrupted
          [Json.obj [("response", Json.str "The ")],
           Json.obj [("response", Json.str "answer.")]]
          StreamExc.readTimeout)).length ≠ 1 := by
  exact ⟨rfl, by decide⟩

/-- C1 (amended): for every question/context pair and every failing network
outcome — connection not established, wait bound elapsed (including between
fragments, mid-iteration), non-success status, or any other exception — the
client yields the fragments of the records already delivered followed by
exactly one trailing human-readable fragment beginning with the failure
marker, instead of raising; when the failure fires before any record was
delivered, the whole output is that single fragment. -/
theorem ask_failure_trailing_marked_fragment (question context : String)
    (r : PostResult) (h : failureOutcome r) :
    ∃ msg, ask_ollama_stream question context r =
        (deliveredRecords r).map chunkFragment ++ [msg] ∧
      startsWithMarker msg ∧
      (deliveredRecords r = [] → ask_ollama_stream question context r = [msg]) := by
  cases r with
  | response status records bodyText =>
    have hb : (status == 200) = false := by
      simpa using h
    refine ⟨"❌ Ollama Error " ++ toString status ++ ": " ++ bodyText, ?_, ?_, ?_⟩
    · simp [ask_ollama_stream, hb, deliveredRecords]
    · exact startsWithMarker_append _ _ (startsWithMarker_append _ _
        (startsWithMarker_append _ _ ⟨" Ollama Error ", rfl⟩))
    · intro _
      simp [ask_ollama_stream, hb]
  | streamInterrupted delivered exc =>
    refine ⟨errorFragment exc, rfl, startsWithMarker_errorFragment exc, ?_⟩
    intro hd
    have hd2 : delivered = [] := hd
    subst hd2
    rfl
  | readTimeout =>
    exact ⟨errorFragment StreamExc.readTimeout, rfl,
      startsWithMarker_errorFragment _, fun _ => rfl⟩
  | connectionError e =>
    exact ⟨errorFragment (StreamExc.connectionError e), rfl,
      startsWithMarker_errorFragment _, fun _ => rfl⟩
  | otherException e =>
    exact ⟨errorFragment (StreamExc.otherException e), rfl,
      startsWithMarker_errorFragment _, fun _ => rfl⟩

/-- C1 amended witness: a concrete mid-stream timeout after one delivered
record yields that record's fragment followed by the single trailing marked
error fragment. -/
theorem ask_failure_trailing_marked_fragment_witness :
    ∃ msg, ask_ollama_stream "q" "ctx"
        (PostResult.streamInterrupted [Json.obj [("response", Json.str "The ")]]
          StreamExc.readTimeout) =
        (deliveredRecords (PostResult.streamInterrupted
          [Json.obj [("response", Json.str "The ")]]
          StreamExc.readTimeout)).map chunkFragment ++ [msg] ∧
      startsWithMarker msg ∧
      (deliveredRecords (PostResult.streamInterrupted
          [Json.obj [("response", Json.str "The ")]] StreamExc.readTimeout) = [] →
        ask_ollama_stream "q" "ctx"
          (PostResult.streamInterrupted [Json.obj [("response", Json.str "The ")]]
            StreamExc.readTimeout) = [msg]) :=
  ask_failure_trailing_marked_fragment "q" "ctx"
    (PostResult.streamInterrupted [Json.obj [("response", Json.str "The ")]]
      StreamExc.readTimeout) trivial

/-- C8: a 200 response of structured records is decoded record by record,
each record's `response` fragment is yielded in order, and the concatenation
of the yielded fragments is the answer text carried by the records. -/
theorem ask_success_yields_each_fragment (question context bodyText : String)
    (records : List Json) :
    ask_ollama_stream question context (PostResult.response 200 records bodyText) =
      records.map chunkFragment ∧
    String.join
        (ask_ollama_stream question context (PostResult.response 200 records bodyText)) =
      String.join (records.map chunkFragment) := by
  have h : ask_ollama_stream question context (PostResult.response 200 records bodyText) =
      records.map chunkFragment := by
    simp [ask_ollama_stream]
  exact ⟨h, by rw [h]⟩

/-- C5: `login` returns true iff the identity exists in the store and the
stored credential equals the supplied credential exactly. -/
theorem login_iff_exact_match (s : AccountState) (email password : String) :
    login s email password = true ↔
      ∃ stored, s.users email = some stored ∧ stored = password := by
  unfold login
  cases h : s.users email <;> simp [h]

/-- C6: `signup` returns false on an empty identity, an empty credential, or
an existing identity, leaving the account state unchanged; on success it
returns true, stores the credential for exactly that identity (no other
account is touched), and creates the identity's history directory. -/
theorem signup_spec (s : AccountState) (email password : String) :
    ((email = "" ∨ password = "" ∨ (s.users email).isSome = true) →
      signup s email password = (false, s)) ∧
    (email ≠ "" → password ≠ "" → s.users email = none →
      (signup s email password).1 = true ∧
      (signup s email password).2.users email = some password ∧
      (∀ e, e ≠ email → (signup s email password).2.users e = s.users e) ∧
      email ∈ (signup s email password).2.dirs) := by
  constructor
  · intro h
    unfold signup
    by_cases hc : email = "" ∨ password = ""
    · rw [if_pos hc]
    · rcases h with h | h | h
      · exact absurd (Or.inl h) hc
      · exact absurd (Or.inr h) hc
      · rw [if_neg hc, if_pos h]
  · intro h1 h2 h3
    have hc : ¬(email = "" ∨ password = "") := by
      rintro (h | h) <;> [exact h1 h; exact h2 h]
    have hs : ¬((s.users email).isSome = true) := by
      rw [h3]; simp
    unfold signup
    rw [if_neg hc, if_neg hs]
    refine ⟨rfl, by simp, fun e he => by simp [he], by simp⟩

/-- C6 witness: signing up a fresh account succeeds and stores the
credential; signing up an existing identity fails and leaves the store
unchanged. -/
theorem signup_spec_witness :
    (signup ⟨fun _ => none, []⟩ "a@x.com" "pw1").1 = true ∧
    (signup ⟨fun _ => none, []⟩ "a@x.com" "pw1").2.users "a@x.com" = some "pw1" ∧
    signup ⟨fun _ => some "pw0", []⟩ "a@x.com" "pw1" =
      (false, ⟨fun _ => some "pw0", []⟩) := by
  have hsucc :=
    (signup_spec ⟨fun _ => none, []⟩ "a@x.com" "pw1").2 (by decide) (by decide) rfl
  have hfail :=
    (signup_spec ⟨fun _ => some "pw0", []⟩ "a@x.com" "pw1").1 (Or.inr (Or.inr rfl))
  exact ⟨hsucc.1, hsucc.2.1, hfail⟩

/-- C4: `load_history` on a missing record or on a record that fails to
parse returns the empty sequence (the function is total: the one exception
the code can meet, `json.JSONDecodeError`, is caught). -/
theorem load_history_missing_or_corrupt (st : HistStore) (email : String)
    (h : st email = none ∨ st email = some none) :
    load_history st email = Json.arr [] := by
  unfold load_history
  rcases h with h | h <;> rw [h]

/-- C4 witness: loading from an empty filesystem returns the empty list. -/
theorem load_history_missing_or_corrupt_witness :
    load_history (fun _ => none) "a@x.com" = Json.arr [] :=
  load_history_missing_or_corrupt (fun _ => none) "a@x.com" (Or.inl rfl)

/-- C10: `load_history` performs no shape validation — whatever JSON value
the stored record parses to is returned verbatim; only a parse failure is
mapped to the empty sequence. -/
theorem load_history_no_shape_validation (st : HistStore) (email : String)
    (j : Json) (h : st email = some (some j)) :
    load_history st email = j := by
  unfold load_history
  rw [h]

/-- C10 witness: a stored record that is a bare JSON string — not a message
list — is returned verbatim as the transcript. -/
theorem load_history_no_shape_validation_witness :
    load_history (fun _ => some (some (Json.str "not a transcript"))) "a@x.com" =
      Json.str "not a transcript" :=
  load_history_no_shape_validation _ "a@x.com" (Json.str "not a transcript") rfl

/-- C3: `save_history` followed immediately by `load_history` on the same
identity returns exactly the saved transcript: the stored JSON is returned
verbatim and decodes back to the original message list, for any transcript
including the empty one. -/
theorem save_load_roundtrip (st : HistStore) (email : String) (T : List Message) :
    load_history (save_history st email T) email = transcriptToJson T ∧
    decodeTranscript (load_history (save_history st email T) email) = some T := by
  have h1 : load_history (save_history st email T) email = transcriptToJson T := by
    unfold load_history save_history
    rw [if_pos rfl]
  exact ⟨h1, by rw [h1]; exact decodeTranscript_transcriptToJson T⟩

/-- With a loaded document, the chat handler's run is determined by whether
the concatenated answer carries the failure marker. -/
theorem handleChatInput_eq (hist : HistStore) (user : String)
    (messages : List Message) (context question : String) (r : PostResult)
    (hctx : context ≠ "") :
    handleChatInput hist user messages context question r =
      if containsMarker (String.join (ask_ollama_stream question context r)) = false then
        { messages := messages ++ [⟨"user", question⟩,
            ⟨"assistant", String.join (ask_ollama_stream question context r)⟩],
          hist := save_history hist user (messages ++ [⟨"user", question⟩,
            ⟨"assistant", String.join (ask_ollama_stream question context r)⟩]),
          saved := true, warned := false }
      else
        { messages := messages ++ [⟨"user", question⟩], hist := hist,
          saved := false, warned := false } := by
  unfold handleChatInput
  rw [if_neg hctx]
  split <;> simp_all

/-- C2: for an ask performed while authenticated with a non-empty document
context, the handler appends the user message; it appends an assistant
message exactly when the concatenated answer does not contain the failure
marker, and it calls `save_history` exactly then; when the endpoint is
unreachable (a connection error), the answer contains the marker, so no
assistant message is appended and no save happens. -/
theorem chat_handler_spec (hist : HistStore) (user : String)
    (messages : List Message) (context question : String) (r : PostResult)
    (hctx : context ≠ "") :
    (containsMarker (String.join (ask_ollama_stream question context r)) = false →
      (handleChatInput hist user messages context question r).messages =
        messages ++ [⟨"user", question⟩,
          ⟨"assistant", String.join (ask_ollama_stream question context r)⟩] ∧
      (handleChatInput hist user messages context question r).saved = true ∧
      (handleChatInput hist user messages context question r).hist =
        save_history hist user
          (handleChatInput hist user messages context question r).messages) ∧
    (containsMarker (String.join (ask_ollama_stream question context r)) = true →
      (handleChatInput hist user messages context question r).messages =
        messages ++ [⟨"user", question⟩] ∧
      (handleChatInput hist user messages context question r).saved = false ∧
      (handleChatInput hist user messages context question r).hist = hist) ∧
    (∀ e, r = PostResult.connectionError e →
      containsMarker (String.join (ask_ollama_stream question context r)) = true) := by
  have hrw := handleChatInput_eq hist user messages context question r hctx
  refine ⟨?_, ?_, ?_⟩
  · intro hm
    rw [hrw, if_pos hm]
    exact ⟨rfl, rfl, rfl⟩
  · intro hm
    rw [hrw, if_neg (by simp [hm])]
    exact ⟨rfl, rfl, rfl⟩
  · intro e he
    subst he
    have hj : String.join (ask_ollama_stream question context
        (PostResult.connectionError e)) =
        "❌ Failed to connect to Ollama. Is it running? Error: " ++ e := rfl
    rw [hj]
    exact containsMarker_of_startsWithMarker _ (startsWithMarker_append _ _
      ⟨" Failed to connect to Ollama. Is it running? Error: ", rfl⟩)

/-- C2 witness: with a loaded document and an unreachable endpoint, the
handler records only the user question and performs no save. -/
theorem chat_handler_spec_witness :
    (handleChatInput (fun _ => none) "a@x.com" [] "doc" "q"
        (PostResult.connectionError "down")).messages = [⟨"user", "q"⟩] ∧
    (handleChatInput (fun _ => none) "a@x.com" [] "doc" "q"
        (PostResult.connectionError "down")).saved = false := by
  have h := chat_handler_spec (fun _ => none) "a@x.com" [] "doc" "q"
    (PostResult.connectionError "down") (by decide)
  have hm := h.2.2 "down" rfl
  have h2 := h.2.1 hm
  exact ⟨h2.1, h2.2.1⟩

/-- C9 counterexample: after a failed exchange the un-replied user question
sits in memory, but a clear-history-triggered save empties the transcript
first, so the durable record becomes the empty transcript — it does not
record the user question at all. -/
theorem failed_ask_then_clear_cex :
    (handleChatInput (fun _ => none) "a@x.com" [] "doc" "q"
        (PostResult.connectionError "down")).messages = [⟨"user", "q"⟩] ∧
    (clearHistoryHandler
        (handleChatInput (fun _ => none) "a@x.com" [] "doc" "q"
          (PostResult.connectionError "down")).hist "a@x.com").2 "a@x.com" =
      some (some (transcriptToJson [])) := by
  exact ⟨rfl, rfl⟩

/-- C9 amended: when an exchange fails, the already-appended user message is
not rolled back and is not yet persisted; a save triggered by a logout or by
the next successful exchange then durably records the user question with no
assistant reply following it (a clear-history instead empties the transcript
before saving, erasing the question). -/
theorem failed_ask_user_message_retained (hist : HistStore) (user : String)
    (messages : List Message) (context question : String) (r : PostResult)
    (hctx : context ≠ "")
    (hfail : containsMarker (String.join (ask_ollama_stream question context r)) = true) :
    (handleChatInput hist user messages context question r).messages =
      messages ++ [⟨"user", question⟩] ∧
    (handleChatInput hist user messages context question r).hist = hist ∧
    logoutSave (handleChatInput hist user messages context question r).hist user
        (handleChatInput hist user messages context question r).messages user =
      some (some (transcriptToJson (messages ++ [⟨"user", question⟩]))) ∧
    (∀ question2 r2,
      containsMarker (String.join (ask_ollama_stream question2 context r2)) = false →
      (handleChatInput
          (handleChatInput hist user messages context question r).hist user
          (handleChatInput hist user messages context question r).messages
          context question2 r2).hist user =
        some (some (transcriptToJson (messages ++ [⟨"user", question⟩] ++
          [⟨"user", question2⟩,
           ⟨"assistant", String.join (ask_ollama_stream question2 context r2)⟩])))) := by
  have hrw := handleChatInput_eq hist user messages context question r hctx
  rw [hrw, if_neg (by simp [hfail])]
  refine ⟨rfl, rfl, ?_, ?_⟩
  · show save_history hist user (messages ++ [⟨"user", question⟩]) user = _
    unfold save_history
    rw [if_pos rfl]
  · intro question2 r2 h2
    have hrw2 := handleChatInput_eq hist user (messages ++ [⟨"user", question⟩])
      context question2 r2 hctx
    rw [hrw2, if_pos h2]
    show save_history hist user _ user = _
    unfold save_history
    rw [if_pos rfl]

/-- C9 amended witness: a concrete failed exchange keeps the user question
in memory unpersisted, and a logout save then durably records it with no
assistant reply. -/
theorem failed_ask_user_message_retained_witness :
    (handleChatInput (fun _ => none) "a@x.com" [] "doc" "q"
        PostResult.readTimeout).messages = [⟨"user", "q"⟩] ∧
    logoutSave (handleChatInput (fun _ => none) "a@x.com" [] "doc" "q"
          PostResult.readTimeout).hist "a@x.com"
        (handleChatInput (fun _ => none) "a@x.com" [] "doc" "q"
          PostResult.readTimeout).messages "a@x.com" =
      some (some (transcriptToJson [⟨"user", "q"⟩])) := by
  have h := failed_ask_user_message_retained (fun _ => none) "a@x.com" [] "doc" "q"
    PostResult.readTimeout (by decide) rfl
  exact ⟨h.1, h.2.2.1⟩

/-! ## Word-wrap lemmas -/

theorem lastSpaceIdx_mem (l : List Char) (i : Nat) (h : lastSpaceIdx l = some i) :
    l[i]? = some ' ' := by
  induction l generalizing i with
  | nil => simp [lastSpaceIdx] at h
  | cons c cs ih =>
    unfold lastSpaceIdx at h
    cases hcs : lastSpaceIdx cs with
    | some j =>
      rw [hcs] at h
      simp at h
      subst h
      simpa using ih j hcs
    | none =>
      rw [hcs] at h
      by_cases hc : c = ' '
      · rw [if_pos hc] at h
        simp at h
        subst h
        simp [hc]
      · rw [if_neg hc] at h
        cases h

theorem lastSpaceIdx_none (l : List Char) (h : lastSpaceIdx l = none) :
    ∀ j : Nat, l[j]? ≠ some ' ' := by
  induction l with
  | nil => intro j; simp
  | cons c cs ih =>
    unfold lastSpaceIdx at h
    cases hcs : lastSpaceIdx cs with
    | some j => rw [hcs] at h; cases h
    | none =>
      rw [hcs] at h
      by_cases hc : c = ' '
      · rw [if_pos hc] at h; cases h
      · intro j
        cases j with
        | zero => simpa using hc
        | succ j => simpa using ih hcs j

theorem lastSpaceIdx_max (l : List Char) (i : Nat) (h : lastSpaceIdx l = some i) :
    ∀ j : Nat, i < j → l[j]? ≠ some ' ' := by
  induction l generalizing i with
  | nil => intro j _; simp
  | cons c cs ih =>
    unfold lastSpaceIdx at h
    cases hcs : lastSpaceIdx cs with
    | some k =>
      rw [hcs] at h
      simp at h
      subst h
      intro j hj
      cases j with
      | zero => omega
      | succ j =>
        have := ih k hcs j (by omega)
        simpa using this
    | none =>
      rw [hcs] at h
      by_cases hc : c = ' '
      · rw [if_pos hc] at h
        simp at h
        subst h
        intro j hj
        cases j with
        | zero => omega
        | succ j => simpa using lastSpaceIdx_none cs hcs j
      · rw [if_neg hc] at h
        cases h

theorem lastSpaceIdx_lt (l : List Char) (i : Nat) (h : lastSpaceIdx l = some i) :
    i < l.length := by
  induction l generalizing i with
  | nil => simp [lastSpaceIdx] at h
  | cons c cs ih =>
    unfold lastSpaceIdx at h
    cases hcs : lastSpaceIdx cs with
    | some j =>
      rw [hcs] at h
      simp at h
      subst h
      simpa using ih j hcs
    | none =>
      rw [hcs] at h
      by_cases hc : c = ' '
      · rw [if_pos hc] at h
        simp at h
        subst h
        simp
      · rw [if_neg hc] at h
        cases h

/-- The split position is the last space strictly before the 90-column
limit when one exists, and exactly 90 otherwise. -/
theorem splitPos_char (l : List Char) :
    (splitPos l < 90 ∧ l[splitPos l]? = some ' ' ∧
        ∀ j : Nat, splitPos l < j → j < 90 → l[j]? ≠ some ' ') ∨
      (splitPos l = 90 ∧ ∀ j : Nat, j < 90 → l[j]? ≠ some ' ') := by
  unfold splitPos
  cases hsp : lastSpaceIdx (l.take 90) with
  | some i =>
    left
    have hi : i < (l.take 90).length := lastSpaceIdx_lt _ i hsp
    have hi90 : i < 90 := lt_of_lt_of_le hi (by simp)
    refine ⟨hi90, ?_, ?_⟩
    · have := lastSpaceIdx_mem _ i hsp
      rwa [List.getElem?_take, if_pos hi90] at this
    · intro j hj hj90 hcontra
      have := lastSpaceIdx_max _ i hsp j hj
      rw [List.getElem?_take, if_pos hj90] at this
      exact this hcontra
  | none =>
    right
    refine ⟨rfl, ?_⟩
    intro j hj90 hcontra
    have := lastSpaceIdx_none _ hsp j
    rw [List.getElem?_take, if_pos hj90] at this
    exact this hcontra

/-- Each loop iteration strictly shortens the line, so fuel `l.length`
covers every iteration the Python `while` performs. -/
theorem wrap_step_lt (l : List Char) (h : 90 < l.length) :
    (lstrip (l.drop (splitPos l))).length < l.length := by
  have hle : (lstrip (l.drop (splitPos l))).length ≤ l.length - splitPos l := by
    have := (List.dropWhile_sublist (l := l.drop (splitPos l)) isPySpace).length_le
    rwa [List.length_drop] at this
  by_cases h0 : splitPos l = 0
  · rcases splitPos_char l with ⟨_, hsp, _⟩ | ⟨h90, _⟩
    · rw [h0] at hsp
      cases l with
      | nil => simp at h
      | cons c cs =>
        have hc : c = ' ' := by simpa using hsp
        have heq : lstrip ((c :: cs).drop (splitPos (c :: cs))) =
            List.dropWhile isPySpace cs := by
          rw [h0]
          show List.dropWhile isPySpace (c :: cs) = List.dropWhile isPySpace cs
          rw [List.dropWhile_cons_of_pos]
          simp [isPySpace, hc]
        rw [heq]
        have := (List.dropWhile_sublist (l := cs) isPySpace).length_le
        simp only [List.length_cons]
        omega
    · omega
  · omega

theorem wrapGo_ne_nil (fuel : Nat) (l : List Char) : wrapGo fuel l ≠ [] := by
  cases fuel with
  | zero => simp [wrapGo]
  | succ f =>
    unfold wrapGo
    split <;> simp

/-- The fuel bound is irrelevant once it covers the line length: the fuel
embedding computes exactly the loop's fixpoint. -/
theorem wrapGo_fuel_irrel (fuel₁ : Nat) :
    ∀ (fuel₂ : Nat) (l : List Char), l.length ≤ fuel₁ → l.length ≤ fuel₂ →
    wrapGo fuel₁ l = wrapGo fuel₂ l := by
  induction fuel₁ with
  | zero =>
    intro fuel₂ l h₁ h₂
    have hl : ¬ 90 < l.length := by omega
    cases fuel₂ with
    | zero => rfl
    | succ g =>
      show wrapGo 0 l = wrapGo (g + 1) l
      rw [wrapGo, wrapGo, if_neg hl]
  | succ f ih =>
    intro fuel₂ l h₁ h₂
    by_cases hl : 90 < l.length
    · cases fuel₂ with
      | zero => omega
      | succ g =>
        rw [wrapGo, wrapGo, if_pos hl, if_pos hl]
        have hlt := wrap_step_lt l hl
        rw [ih g (lstrip (l.drop (splitPos l))) (by omega) (by omega)]
    · cases fuel₂ with
      | zero =>
        show wrapGo (f + 1) l = wrapGo 0 l
        rw [wrapGo, wrapGo, if_neg hl]
      | succ g =>
        rw [wrapGo, wrapGo, if_neg hl, if_neg hl]

/-- Interleaving the produced pieces with the whitespace runs the loop
stripped reconstructs the original line. -/
theorem wrapGo_glue (fuel : Nat) :
    ∀ l : List Char, l.length ≤ fuel →
    ∃ gaps, gaps.length + 1 = (wrapGo fuel l).length ∧
      (∀ g ∈ gaps, g.all isPySpace = true) ∧
      glue (wrapGo fuel l) gaps = l := by
  induction fuel with
  | zero =>
    intro l h
    exact ⟨[], by simp [wrapGo], by simp, by simp [wrapGo, glue]⟩
  | succ f ih =>
    intro l h
    by_cases hl : 90 < l.length
    · have hlt := wrap_step_lt l hl
      obtain ⟨gaps, hlen, hall, hglue⟩ := ih (lstrip (l.drop (splitPos l))) (by omega)
      refine ⟨(l.drop (splitPos l)).takeWhile isPySpace :: gaps, ?_, ?_, ?_⟩
      · rw [wrapGo, if_pos hl]
        simp only [List.length_cons]
        omega
      · intro g hg
        rcases List.mem_cons.mp hg with rfl | hg
        · rw [List.all_eq_true]
          intro x hx
          exact List.mem_takeWhile_imp hx
        · exact hall g hg
      · rw [wrapGo, if_pos hl, glue, hglue]
        show l.take (splitPos l) ++ (l.drop (splitPos l)).takeWhile isPySpace ++
            (l.drop (splitPos l)).dropWhile isPySpace = l
        rw [List.append_assoc, List.takeWhile_append_dropWhile, List.take_append_drop]
    · refine ⟨[], ?_, by simp, ?_⟩
      · rw [wrapGo, if_neg hl]
        rfl
      · rw [wrapGo, if_neg hl, glue]

/-- C7 (amended): the wrap splits a long line at the last space strictly
before the 90-column limit when one exists (hard split exactly at 90
otherwise), and rejoining the produced lines reconstructs the original line
up to the whitespace run the loop strips at each break: there is one
all-whitespace gap per break such that interleaving pieces and gaps gives
back the original line (plain concatenation does not, see the
counterexample). -/
theorem wrapLine_spec (l : List Char) :
    (∃ gaps, gaps.length + 1 = (wrapLine l).length ∧
      (∀ g ∈ gaps, g.all isPySpace = true) ∧ glue (wrapLine l) gaps = l) ∧
    (90 < l.length →
      (wrapLine l).head? = some (l.take (splitPos l)) ∧
      ((splitPos l < 90 ∧ l[splitPos l]? = some ' ' ∧
          ∀ j : Nat, splitPos l < j → j < 90 → l[j]? ≠ some ' ') ∨
        (splitPos l = 90 ∧ ∀ j : Nat, j < 90 → l[j]? ≠ some ' '))) := by
  constructor
  · exact wrapGo_glue l.length l le_rfl
  · intro hl
    refine ⟨?_, splitPos_char l⟩
    obtain ⟨f, hf⟩ : ∃ f, l.length = f + 1 := ⟨l.length - 1, by omega⟩
    unfold wrapLine
    rw [hf, wrapGo, if_pos hl]
    rfl

/-- C7 witness: the 91-character line `"aaaaa" ++ " " ++ "b"*85` splits at
the space at index 5, its first produced piece being `"aaaaa"`. -/
theorem wrapLine_spec_witness :
    (wrapLine (List.replicate 5 'a' ++ ' ' :: List.replicate 85 'b')).head? =
      some (List.replicate 5 'a') := by
  have h := (wrapLine_spec (List.replicate 5 'a' ++ ' ' :: List.replicate 85 'b')).2
    (by decide)
  rw [h.1]
  decide

/-- C7 counterexample: wrapping the 91-character line
`"aaaaa" ++ " " ++ "b"*85` drops the space at the break, so rejoining the
produced lines does not reconstruct the original line. -/
theorem wrapLine_rejoin_cex :
    (wrapLine (List.replicate 5 'a' ++ ' ' :: List.replicate 85 'b')).flatten ≠
      List.replicate 5 'a' ++ ' ' :: List.replicate 85 'b' := by
  decide

end Cognify
